import Mathlib

namespace BinanceSDK

mutual

/-- Shallow embedding of the JSON values carried by stream frames. -/
inductive JsonValue where
  | null
  | bool (b : Bool)
  | num (n : Int)
  | str (s : String)
  | obj (fields : JsonFields)
deriving DecidableEq

/-- Field list of a nested JSON object value. -/
inductive JsonFields where
  | nil
  | cons (k : String) (v : JsonValue) (rest : JsonFields)
deriving DecidableEq

end

/-- A JSON object frame (a Python `dict`), as an association list. -/
abbrev Msg := List (String × JsonValue)

/-- Dictionary lookup (first matching key). -/
def alookup {κ α : Type} [DecidableEq κ] : List (κ × α) → κ → Option α
  | [], _ => none
  | p :: l, k => if p.1 = k then some p.2 else alookup l k

/-- Dictionary key deletion (`del d[k]`). -/
def aerase {κ α : Type} [DecidableEq κ] : List (κ × α) → κ → List (κ × α)
  | [], _ => []
  | p :: l, k => if p.1 = k then aerase l k else p :: aerase l k

/-- Dictionary assignment (`d[k] = v`), overwriting any previous binding. -/
def ainsert {κ α : Type} [DecidableEq κ] (l : List (κ × α)) (k : κ) (v : α) :
    List (κ × α) :=
  (k, v) :: aerase l k

/-- Lookup inside a nested JSON object value (`error[key]` in Python);
returns `none` both when the key is missing (Python `KeyError`) and when the
value is not an object (Python `TypeError`). -/
def objLookup : JsonValue → String → Option JsonValue
  | .obj fields, k => fieldsLookup fields k
  | _, _ => none
where
  fieldsLookup : JsonFields → String → Option JsonValue
    | .nil, _ => none
    | .cons k' v rest, k => if k' = k then some v else fieldsLookup rest k

/-- Modelled from the spec: module `binance.common.constants` is not among the
provided sources; spec section 6 fixes the frame key for request/response
correlation as `id`. The `send` docstring in `stream.py` shows the same key. -/
def STREAM_KEY_ID : String := "id"

/-- Modelled from the spec: spec section 6 fixes the success-payload key of a
correlated response as `result`. -/
def STREAM_KEY_RESULT : String := "result"

/-- Modelled from the spec: spec section 6 fixes the failure-payload key of a
correlated response as `error`. -/
def STREAM_KEY_ERROR : String := "error"

/-- Modelled from the spec: spec section 6 fixes the error-code key inside an
`error` payload as `code`. -/
def ERROR_KEY_CODE : String := "code"

/-- Modelled from the spec: spec section 6 fixes the error-message key inside
an `error` payload as `msg`. -/
def ERROR_KEY_MESSAGE : String := "msg"

/-- State of an `asyncio.Future` allocated by the stream.  `pending` is a
future not yet resolved; the `resolved*` states record the terminal value the
awaiting caller receives.  `resolvedSocket` is the state of `_open_future`
after `_set_socket` publishes the socket handle. -/
inductive FutureState where
  | pending
  | resolvedResult (v : JsonValue)
  | resolvedError (code emsg : JsonValue)
  | resolvedSocket (sock : Nat)
deriving DecidableEq

/-- The mutable fields of `binance.subscribe.stream.Stream` (stream.py lines
99 to 110), shallowly embedded.  Python object allocation (futures created by
`create_future`, tasks created by `asyncio.create_task`, sockets produced by
`websockets.connect`) is modelled by handing out identifiers from the
`next_fresh` counter, so two distinct allocations are never equal.  Fields keep
the source names without the leading underscore. -/
structure StreamState where
  /-- `self._socket` (socket handle, `None` until `_set_socket` runs). -/
  socket : Option Nat
  /-- `self._conn_task` (the background connection task). -/
  conn_task : Option Nat
  /-- `self._connected_task` (the on-connected callback task). -/
  connected_task : Option Nat
  /-- `self._message_id` (the request id counter). -/
  message_id : Nat
  /-- `self._message_futures` (pending-request table: message id to future). -/
  message_futures : List (Nat × Nat)
  /-- States of all allocated futures, keyed by future identifier. -/
  future_states : List (Nat × FutureState)
  /-- `self._open_future` (the open-socket wait gate). -/
  open_future : Option Nat
  /-- `self._closing` flag. -/
  closing : Bool
  /-- Allocator for fresh future/task/socket identifiers. -/
  next_fresh : Nat
deriving DecidableEq

/-- `Stream.__init__` (stream.py lines 99 to 110): no socket, no tasks,
message id `0`, empty pending table, no open gate, not closing. -/
def initState : StreamState :=
  { socket := none
    conn_task := none
    connected_task := none
    message_id := 0
    message_futures := []
    future_states := []
    open_future := none
    closing := false
    next_fresh := 0 }

/-- `create_future()` from `binance.common.utils` (used at stream.py lines 167
and 334): allocates a fresh pending future. -/
def create_future (s : StreamState) : Nat × StreamState :=
  (s.next_fresh,
   { s with
      future_states := ainsert s.future_states s.next_fresh FutureState.pending
      next_fresh := s.next_fresh + 1 })

/-- `Stream._before_connect` (stream.py lines 166 to 167):
`self._open_future = create_future()`. -/
def before_connect (s : StreamState) : StreamState :=
  let fs := create_future s
  { fs.2 with open_future := some fs.1 }

/-- `Stream.connect` (stream.py lines 119 to 123): runs `_before_connect`,
creates a fresh background task for `self._connect()` and stores it in
`self._conn_task`.  The Python method is not a coroutine: it performs no
suspension and returns `self` at once, which the embedding reflects by being a
plain total function on the state. -/
def connect (s : StreamState) : StreamState :=
  let s' := before_connect s
  { s' with conn_task := some s'.next_fresh, next_fresh := s'.next_fresh + 1 }

/-- `Stream._set_socket` (stream.py lines 112 to 117) together with the
creation of `self._connected_task` that immediately follows it inside
`_connect` (stream.py lines 205 to 209): resolves the open gate with a freshly
obtained socket handle, clears the gate, stores the socket, and starts the
on-connected task. -/
def set_socket (s : StreamState) : StreamState :=
  let sock := s.next_fresh
  let s₁ := { s with next_fresh := s.next_fresh + 1 }
  let s₂ :=
    match s₁.open_future with
    | some f =>
        { s₁ with
            future_states := ainsert s₁.future_states f (FutureState.resolvedSocket sock)
            open_future := none }
    | none => s₁
  { s₂ with
      socket := some sock
      connected_task := some s₂.next_fresh
      next_fresh := s₂.next_fresh + 1 }

/-- Python membership test `msg[STREAM_KEY_ID] not in self._message_futures`:
finds the pending-table entry whose (integer) key equals the frame's id value.
Frame ids that are not non-negative integers never match a table key, because
table keys are assigned from the `message_id` counter. -/
def findMatch : List (Nat × Nat) → JsonValue → Option (Nat × Nat)
  | [], _ => none
  | p :: l, v =>
      if v = JsonValue.num (Int.ofNat p.1) then some p else findMatch l v

/-- Observable outcome of one `Stream._handle_message` invocation. -/
inductive HandleResult where
  /-- The frame did not correlate: forwarded to the `on_message` callback. -/
  | emittedOnMessage (m : Msg)
  /-- The matching pending future was resolved with the `result` payload. -/
  | resolvedResult (mid fid : Nat) (v : JsonValue)
  /-- The matching pending future was failed with a `StreamSubscribeException`
  built from the `error` payload. -/
  | resolvedError (mid fid : Nat) (code emsg : JsonValue)
  /-- The frame matched a pending id but carried neither `result` nor `error`:
  the table entry was deleted and the future left untouched. -/
  | droppedEntry (mid fid : Nat)
  /-- Python would raise (`KeyError`/`TypeError`) while reading
  `error[ERROR_KEY_CODE]` or `error[ERROR_KEY_MESSAGE]`, before resolving the
  future and before the `del`. -/
  | raisedInHandler (mid fid : Nat)
deriving DecidableEq

/-- `Stream._handle_message` (stream.py lines 137 to 164), one atomic step of
the receive loop: frames without an id, or whose id is not in the pending
table, go to `on_message`; otherwise the matching future is resolved from the
`result` or `error` payload and the table entry is deleted in the same step
(the handler contains no suspension point between `set_result` and `del`). -/
def handle_message (s : StreamState) (msg : Msg) : HandleResult × StreamState :=
  match alookup msg STREAM_KEY_ID with
  | none => (.emittedOnMessage msg, s)
  | some v =>
    match findMatch s.message_futures v with
    | none => (.emittedOnMessage msg, s)
    | some (mid, fid) =>
      match alookup msg STREAM_KEY_RESULT with
      | some r =>
          (.resolvedResult mid fid r,
           { s with
              future_states := ainsert s.future_states fid (FutureState.resolvedResult r)
              message_futures := aerase s.message_futures mid })
      | none =>
        match alookup msg STREAM_KEY_ERROR with
        | some e =>
          match objLookup e ERROR_KEY_CODE, objLookup e ERROR_KEY_MESSAGE with
          | some c, some m =>
              (.resolvedError mid fid c m,
               { s with
                  future_states := ainsert s.future_states fid (FutureState.resolvedError c m)
                  message_futures := aerase s.message_futures mid })
          | _, _ => (.raisedInHandler mid fid, s)
        | none =>
            (.droppedEntry mid fid,
             { s with message_futures := aerase s.message_futures mid })

/-- Outcome of the synchronous prefix of `Stream.send` (up to the point where
the caller starts awaiting). -/
inductive SendStep where
  /-- `raise StreamDisconnectedException(self._uri)` (stream.py line 332):
  no socket and no open gate, nothing mutated, no suspension before the raise. -/
  | raisedNotConnected
  /-- `socket = await self._open_future` (stream.py line 330): the caller
  suspends on the open gate before mutating anything; once the gate resolves
  the resumed continuation behaves like a send with a socket available. -/
  | awaitingOpen (f : Nat)
  /-- The request was stamped with id `mid`, registered in the pending table
  under future `fid`, and written to the socket as `wire`; the caller now
  awaits the future. -/
  | requested (mid fid : Nat) (wire : Msg)
deriving DecidableEq

/-- `Stream.send` (stream.py lines 298 to 343): if no socket is set, either
await the open gate (when a connection attempt is in flight) or raise
`StreamDisconnectedException`; otherwise create a fresh future, read and
increment `self._message_id`, stamp the id into the caller's dict
(`msg[STREAM_KEY_ID] = message_id`), register the future in
`self._message_futures` and write the serialized dict to the socket. -/
def send (s : StreamState) (msg : Msg) : SendStep × StreamState :=
  match s.socket with
  | none =>
    match s.open_future with
    | some f => (.awaitingOpen f, s)
    | none => (.raisedNotConnected, s)
  | some _ =>
    let fid := s.next_fresh
    let mid := s.message_id
    let wire := ainsert msg STREAM_KEY_ID (JsonValue.num (Int.ofNat mid))
    (.requested mid fid wire,
     { s with
        next_fresh := s.next_fresh + 1
        future_states := ainsert s.future_states fid FutureState.pending
        message_id := mid + 1
        message_futures := ainsert s.message_futures mid fid })

/-- Outcome of `Stream.close`. -/
inductive CloseResult where
  /-- `raise StreamDisconnectedException(self._uri)` (stream.py line 263). -/
  | raisedNotConnected
  /-- The teardown completed and `close` returned normally. -/
  | closed
deriving DecidableEq

/-- `Stream.close` (stream.py lines 252 to 296): raises
`StreamDisconnectedException` when `self._conn_task` is unset (falsy);
otherwise sets `_closing`, cancels and awaits the connection task (which
swallows the cancellation because `_closing` is set), closes the socket, and
finally resets `self._socket = None` and `self._closing = False`.  Note that
`self._conn_task` is never cleared. -/
def close (s : StreamState) : CloseResult × StreamState :=
  match s.conn_task with
  | none => (.raisedNotConnected, s)
  | some _ => (.closed, { s with socket := none, closing := false })

/-- `Stream._reconnect` (stream.py lines 231 to 250), the `before_retry` hook
of the `aioretry` decorator on `_connect`: cancels and forgets the
on-connected task, then runs `_before_connect` to install a fresh open gate.
It touches neither `message_id` nor `message_futures`. -/
def reconnect (s : StreamState) : StreamState :=
  before_connect { s with connected_task := none }

/-- One schedulable operation on a stream.  The cooperative single-threaded
asyncio event loop interleaves these steps; each is atomic because the
corresponding source region contains no suspension point that touches the
shared fields. -/
inductive Op where
  | connect
  | close
  | reconnect
  | setSocket
  | send (msg : Msg)
  | handle (msg : Msg)

/-- Effect of one operation on the stream state. -/
def applyOp (s : StreamState) : Op → StreamState
  | .connect => connect s
  | .close => (close s).2
  | .reconnect => reconnect s
  | .setSocket => set_socket s
  | .send m => (send s m).2
  | .handle m => (handle_message s m).2

/-- Run a sequence of operations from a state. -/
def run (s : StreamState) (ops : List Op) : StreamState := ops.foldl applyOp s

/-- Request ids assigned by one operation: a `send` that proceeds (socket
available) assigns the current `message_id`; every other operation assigns
none. -/
def opSendIds (s : StreamState) : Op → List Nat
  | .send _ =>
    match s.socket with
    | some _ => [s.message_id]
    | none => []
  | _ => []

/-- All request ids assigned along a run, in order. -/
def runIds : StreamState → List Op → List Nat
  | _, [] => []
  | s, o :: ops => opSendIds s o ++ runIds (applyOp s o) ops

/-- The pending-request table only holds entries whose future is still
pending, in other words no table entry is keyed by an id whose caller has
already received a terminal result. -/
def TablePending (s : StreamState) : Prop :=
  ∀ p ∈ s.message_futures, alookup s.future_states p.2 = some FutureState.pending

/-- Inductive well-formedness of a stream state: the pending-table invariant
together with the bookkeeping facts (distinct future identifiers, identifiers
below the allocation counter, table keys below the id counter, the open gate
distinct from every table future) needed to show it is preserved. -/
def Inv (s : StreamState) : Prop :=
  TablePending s ∧
  (s.message_futures.map Prod.snd).Nodup ∧
  (∀ p ∈ s.message_futures, p.2 < s.next_fresh) ∧
  (∀ p ∈ s.message_futures, p.1 < s.message_id) ∧
  (∀ p ∈ s.future_states, p.1 < s.next_fresh) ∧
  (∀ f ∈ s.open_future.toList, f < s.next_fresh ∧ ∀ p ∈ s.message_futures, p.2 ≠ f) ∧
  (∀ t ∈ s.conn_task.toList, t < s.next_fresh)

instance decidableTablePending (s : StreamState) : Decidable (TablePending s) := by
  unfold TablePending; exact inferInstance

instance decidableInv (s : StreamState) : Decidable (Inv s) := by
  unfold Inv; exact inferInstance

/-- A future identifier no part of the state still tracks: such a future can
never be resolved by any later operation. -/
def Untracked (s : StreamState) (fid : Nat) : Prop :=
  fid < s.next_fresh ∧
  (∀ p ∈ s.message_futures, p.2 ≠ fid) ∧
  (∀ f ∈ s.open_future.toList, f ≠ fid)

/-- A message id that left the pending table for good: it is absent from the
table and below the id counter, so no later operation reintroduces it. -/
def KeyRetired (s : StreamState) (mid : Nat) : Prop :=
  alookup s.message_futures mid = none ∧ mid < s.message_id

/-- A registered consumer of `ProcessorBase` (processors.py): `dispatch`
distinguishes consumers by `asyncio.iscoroutinefunction(handler.receive)`.
The receive body either returns normally or raises, modelled by `Except`
over an abstract exception code. -/
inductive Handler where
  | sync (f : JsonValue → Except Nat Unit)
  | async (f : JsonValue → Except Nat Unit)

/-- Observable outcome of `ProcessorBase.dispatch`: which handler indices had
their receive body executed (in execution order), and the exception, if any,
that propagated to the caller of `dispatch`. -/
structure DispatchResult where
  invoked : List Nat
  raised : Option Nat
deriving DecidableEq

/-- First exception among the gathered coroutines, in completion order (the
gathered coroutines contain no suspension point, so they complete in argument
order; `asyncio.gather` without `return_exceptions` re-raises the first
exception but does not cancel the others, so every body still runs). -/
def firstErr : List (Nat × Except Nat Unit) → Option Nat
  | [] => none
  | (_, .error e) :: _ => some e
  | (_, .ok _) :: rest => firstErr rest

/-- The loop of `ProcessorBase.dispatch` (processors.py lines 40 to 50) over
the remaining handlers, carrying the next index and the coroutines collected
so far: a synchronous handler runs inline and, if it raises, the exception
propagates at once (later handlers never run and the collected coroutines are
never awaited); asynchronous handlers are collected and all executed by the
final `asyncio.gather`. -/
def dispatchAux (p : JsonValue) : Nat → List Handler → List (Nat × Except Nat Unit) →
    DispatchResult
  | _, [], coros => { invoked := coros.map Prod.fst, raised := firstErr coros }
  | i, .sync f :: rest, coros =>
    match f p with
    | .ok _ =>
        let r := dispatchAux p (i + 1) rest coros
        { invoked := i :: r.invoked, raised := r.raised }
    | .error e => { invoked := [i], raised := some e }
  | i, .async f :: rest, coros => dispatchAux p (i + 1) rest (coros ++ [(i, f p)])

/-- `ProcessorBase.dispatch` (processors.py lines 40 to 50). -/
def dispatch (handlers : List Handler) (p : JsonValue) : DispatchResult :=
  dispatchAux p 0 handlers []

/-- A handler that cannot abort the dispatch loop on payload `p`: a
synchronous one that returns normally, or any asynchronous one. -/
def syncOkOn (p : JsonValue) : Handler → Prop
  | .sync f => f p = Except.ok ()
  | .async _ => True

/-- Demo state: a stream after `connect()` and a successful socket open. -/
def demoConnected : StreamState := set_socket (connect initState)

/-- Demo state: `demoConnected` after one `send({})`, which assigned request
id `0` kept pending under future `4`. -/
def demoState : StreamState := (send demoConnected []).2

/-- Demo inbound frame: a response to request id `0` with a null `result`. -/
def demoResponse : Msg :=
  [(STREAM_KEY_ID, JsonValue.num (Int.ofNat 0)),
   (STREAM_KEY_RESULT, JsonValue.null)]

/-- Demo inbound frame: carries id `0` but neither `result` nor `error`. -/
def demoNoPayload : Msg := [(STREAM_KEY_ID, JsonValue.num (Int.ofNat 0))]

/-- Demo error payload: a JSON object with `code` equal to `-1` and `msg`
equal to `bad param`. -/
def demoErrorPayload : JsonValue :=
  JsonValue.obj
    (JsonFields.cons ERROR_KEY_CODE (JsonValue.num (-1))
      (JsonFields.cons ERROR_KEY_MESSAGE (JsonValue.str "bad param")
        JsonFields.nil))

/-- Demo inbound frame: an error response to request id `0`. -/
def demoError : Msg :=
  [(STREAM_KEY_ID, JsonValue.num (Int.ofNat 0)),
   (STREAM_KEY_ERROR, demoErrorPayload)]

/-- Demo consumer whose synchronous receive raises (exception code `7`). -/
def failingHandler : Handler := .sync fun _ => .error 7

/-- Demo consumer whose synchronous receive returns normally. -/
def okHandler : Handler := .sync fun _ => .ok ()

section AssocLemmas

variable {κ α : Type} [DecidableEq κ]

theorem alookup_aerase_self (l : List (κ × α)) (k : κ) :
    alookup (aerase l k) k = none := by
  induction l with
  | nil => rfl
  | cons p l ih =>
    by_cases h : p.1 = k
    · simpa [aerase, h] using ih
    · simp [aerase, alookup, h, ih]

theorem alookup_aerase_ne (l : List (κ × α)) {k k' : κ} (h : k' ≠ k) :
    alookup (aerase l k) k' = alookup l k' := by
  induction l with
  | nil => rfl
  | cons p l ih =>
    by_cases hp : p.1 = k
    · have hk : ¬k = k' := fun hc => h hc.symm
      simp [aerase, alookup, hp, hk, ih]
    · simp [aerase, alookup, hp, ih]

theorem alookup_ainsert_self (l : List (κ × α)) (k : κ) (v : α) :
    alookup (ainsert l k v) k = some v := by
  simp [ainsert, alookup]

theorem alookup_ainsert_ne (l : List (κ × α)) {k k' : κ} (v : α) (h : k' ≠ k) :
    alookup (ainsert l k v) k' = alookup l k' := by
  have : k ≠ k' := fun hc => h hc.symm
  simp [ainsert, alookup, this, alookup_aerase_ne l h]

theorem mem_aerase {l : List (κ × α)} {k : κ} {p : κ × α} :
    p ∈ aerase l k ↔ p ∈ l ∧ p.1 ≠ k := by
  induction l with
  | nil => simp [aerase]
  | cons q l ih =>
    by_cases hq : q.1 = k
    · simp only [aerase, if_pos hq, ih, List.mem_cons]
      constructor
      · rintro ⟨hm, hne⟩; exact ⟨Or.inr hm, hne⟩
      · rintro ⟨hm | hm, hne⟩
        · exact absurd (hm ▸ hq) hne
        · exact ⟨hm, hne⟩
    · simp only [aerase, if_neg hq, List.mem_cons, ih]
      constructor
      · rintro (rfl | ⟨hm, hne⟩)
        · exact ⟨Or.inl rfl, hq⟩
        · exact ⟨Or.inr hm, hne⟩
      · rintro ⟨hm | hm, hne⟩
        · exact Or.inl hm
        · exact Or.inr ⟨hm, hne⟩

theorem mem_ainsert {l : List (κ × α)} {k : κ} {v : α} {p : κ × α} :
    p ∈ ainsert l k v ↔ p = (k, v) ∨ (p ∈ l ∧ p.1 ≠ k) := by
  simp [ainsert, mem_aerase]

theorem alookup_mem {l : List (κ × α)} {k : κ} {v : α}
    (h : alookup l k = some v) : (k, v) ∈ l := by
  induction l with
  | nil => simp [alookup] at h
  | cons p l ih =>
    by_cases hp : p.1 = k
    · simp only [alookup, if_pos hp] at h
      obtain ⟨k', v'⟩ := p
      obtain rfl : v' = v := by simpa using h
      obtain rfl : k' = k := hp
      exact List.mem_cons_self ..
    · simp only [alookup, if_neg hp] at h
      exact List.mem_cons_of_mem _ (ih h)

theorem aerase_sublist (l : List (κ × α)) (k : κ) : (aerase l k).Sublist l := by
  induction l with
  | nil => simp [aerase]
  | cons p l ih =>
    by_cases hp : p.1 = k
    · simpa [aerase, hp] using ih.cons p
    · simpa [aerase, hp] using ih.cons₂ p

theorem alookup_eq_none_of_forall {l : List (κ × α)} {k : κ}
    (h : ∀ p ∈ l, p.1 ≠ k) : alookup l k = none := by
  induction l with
  | nil => rfl
  | cons p l ih =>
    have hp := h p (List.mem_cons_self ..)
    simp only [alookup, if_neg hp]
    exact ih fun q hq => h q (List.mem_cons_of_mem _ hq)

end AssocLemmas

theorem findMatch_eq (l : List (Nat × Nat)) (k : Nat) :
    findMatch l (JsonValue.num (Int.ofNat k)) =
      Option.map (fun f => (k, f)) (alookup l k) := by
  induction l with
  | nil => rfl
  | cons p l ih =>
    by_cases hp : p.1 = k
    · subst hp
      simp [findMatch, alookup]
    · have hne : JsonValue.num (Int.ofNat k) ≠ JsonValue.num (Int.ofNat p.1) := by
        intro hc
        apply hp
        injection hc with h'
        exact (Int.ofNat.inj h').symm
      simp only [findMatch, alookup, if_neg hne, if_neg hp, ih]

theorem findMatch_mem {l : List (Nat × Nat)} {v : JsonValue} {p : Nat × Nat}
    (h : findMatch l v = some p) :
    p ∈ l ∧ v = JsonValue.num (Int.ofNat p.1) := by
  induction l with
  | nil => simp [findMatch] at h
  | cons q l ih =>
    by_cases hq : v = JsonValue.num (Int.ofNat q.1)
    · simp only [findMatch, if_pos hq] at h
      obtain rfl : q = p := by simpa using h
      exact ⟨List.mem_cons_self .., hq⟩
    · simp only [findMatch, if_neg hq] at h
      obtain ⟨hm, hv⟩ := ih h
      exact ⟨List.mem_cons_of_mem _ hm, hv⟩

theorem findMatch_eq_none_of_lookup_ne {l : List (Nat × Nat)} {v : JsonValue}
    (h : ∀ p ∈ l, v ≠ JsonValue.num (Int.ofNat p.1)) :
    findMatch l v = none := by
  induction l with
  | nil => rfl
  | cons p l ih =>
    have hp := h p (List.mem_cons_self ..)
    simp only [findMatch, if_neg hp]
    exact ih fun q hq => h q (List.mem_cons_of_mem _ hq)

theorem nodup_snd_aerase {l : List (Nat × Nat)} (k : Nat)
    (h : (l.map Prod.snd).Nodup) : ((aerase l k).map Prod.snd).Nodup :=
  h.sublist ((aerase_sublist l k).map Prod.snd)

theorem snd_ne_of_nodup {l : List (Nat × Nat)} (h : (l.map Prod.snd).Nodup)
    {p q : Nat × Nat} (hp : p ∈ l) (hq : q ∈ l) (hne : p.1 ≠ q.1) :
    p.2 ≠ q.2 := by
  intro hc
  exact hne (congrArg Prod.fst (List.inj_on_of_nodup_map h hp hq hc))

theorem inv_before_connect {s : StreamState} (h : Inv s) : Inv (before_connect s) := by
  obtain ⟨h1, h2, h3, h4, h5, h6, h7⟩ := h
  refine ⟨?_, ?_, ?_, ?_, ?_, ?_, ?_⟩ <;>
    simp only [before_connect, create_future, TablePending]
  · intro p hp
    rw [alookup_ainsert_ne _ _ (Nat.ne_of_lt (h3 p hp))]
    exact h1 p hp
  · exact h2
  · intro p hp; exact Nat.lt_succ_of_lt (h3 p hp)
  · exact h4
  · intro p hp
    rcases mem_ainsert.1 hp with rfl | ⟨hm, _⟩
    · exact Nat.lt_succ_self _
    · exact Nat.lt_succ_of_lt (h5 p hm)
  · intro f hf
    obtain rfl : f = s.next_fresh := by simpa [Option.toList] using hf
    exact ⟨Nat.lt_succ_self _, fun p hp => Nat.ne_of_lt (h3 p hp)⟩
  · intro t ht; exact Nat.lt_succ_of_lt (h7 t ht)

theorem inv_connect {s : StreamState} (h : Inv s) : Inv (connect s) := by
  obtain ⟨h1, h2, h3, h4, h5, h6, h7⟩ := inv_before_connect h
  refine ⟨?_, ?_, ?_, ?_, ?_, ?_, ?_⟩ <;>
    simp only [connect, TablePending]
  · exact h1
  · exact h2
  · intro p hp; exact Nat.lt_succ_of_lt (h3 p hp)
  · exact h4
  · intro p hp; exact Nat.lt_succ_of_lt (h5 p hp)
  · intro f hf
    obtain ⟨hlt, hne⟩ := h6 f hf
    exact ⟨Nat.lt_succ_of_lt hlt, hne⟩
  · intro t ht
    obtain rfl : t = (before_connect s).next_fresh := by
      simpa [Option.toList] using ht
    exact Nat.lt_succ_self _

theorem inv_close {s : StreamState} (h : Inv s) : Inv (close s).2 := by
  obtain ⟨h1, h2, h3, h4, h5, h6, h7⟩ := h
  cases hc : s.conn_task with
  | none => simpa [close, hc] using ⟨h1, h2, h3, h4, h5, h6, h7⟩
  | some t =>
    refine ⟨?_, ?_, ?_, ?_, ?_, ?_, ?_⟩ <;> simp only [close, hc, TablePending]
    · exact h1
    · exact h2
    · exact h3
    · exact h4
    · exact h5
    · exact h6
    · simpa [hc] using h7

theorem inv_reconnect {s : StreamState} (h : Inv s) : Inv (reconnect s) := by
  obtain ⟨h1, h2, h3, h4, h5, h6, h7⟩ := h
  exact inv_before_connect ⟨h1, h2, h3, h4, h5, h6, h7⟩

theorem inv_set_socket {s : StreamState} (h : Inv s) : Inv (set_socket s) := by
  obtain ⟨h1, h2, h3, h4, h5, h6, h7⟩ := h
  cases hof : s.open_future with
  | none =>
    refine ⟨?_, ?_, ?_, ?_, ?_, ?_, ?_⟩ <;> simp only [set_socket, hof, TablePending]
    · exact h1
    · exact h2
    · intro p hp; have := h3 p hp; omega
    · exact h4
    · intro p hp; have := h5 p hp; omega
    · intro f hf; simp [hof, Option.toList] at hf
    · intro t ht; have := h7 t ht; omega
  | some f =>
    have hflt : f < s.next_fresh := (h6 f (by simp [hof, Option.toList])).1
    have hfne : ∀ p ∈ s.message_futures, p.2 ≠ f :=
      (h6 f (by simp [hof, Option.toList])).2
    refine ⟨?_, ?_, ?_, ?_, ?_, ?_, ?_⟩ <;> simp only [set_socket, hof, TablePending]
    · intro p hp
      rw [alookup_ainsert_ne _ _ (hfne p hp)]
      exact h1 p hp
    · exact h2
    · intro p hp; have := h3 p hp; omega
    · exact h4
    · intro p hp
      rcases mem_ainsert.1 hp with rfl | ⟨hm, _⟩
      · omega
      · have := h5 p hm; omega
    · intro g hg; simp [Option.toList] at hg
    · intro t ht; have := h7 t ht; omega

theorem inv_send {s : StreamState} (m : Msg) (h : Inv s) : Inv (send s m).2 := by
  obtain ⟨h1, h2, h3, h4, h5, h6, h7⟩ := h
  cases hs : s.socket with
  | none =>
    cases hof : s.open_future with
    | some f => simpa [send, hs, hof] using ⟨h1, h2, h3, h4, h5, h6, h7⟩
    | none => simpa [send, hs, hof] using ⟨h1, h2, h3, h4, h5, h6, h7⟩
  | some sock =>
    refine ⟨?_, ?_, ?_, ?_, ?_, ?_, ?_⟩ <;> simp only [send, hs, TablePending]
    · intro p hp
      rcases mem_ainsert.1 hp with rfl | ⟨hm, _⟩
      · exact alookup_ainsert_self ..
      · rw [alookup_ainsert_ne _ _ (Nat.ne_of_lt (h3 p hm))]
        exact h1 p hm
    · simp only [ainsert, List.map_cons, List.nodup_cons]
      constructor
      · intro hc
        obtain ⟨p, hp, hps⟩ := List.mem_map.1 hc
        exact absurd hps (Nat.ne_of_lt (h3 p (mem_aerase.1 hp).1))
      · exact nodup_snd_aerase _ h2
    · intro p hp
      rcases mem_ainsert.1 hp with rfl | ⟨hm, _⟩
      · exact Nat.lt_succ_self _
      · exact Nat.lt_succ_of_lt (h3 p hm)
    · intro p hp
      rcases mem_ainsert.1 hp with rfl | ⟨hm, _⟩
      · exact Nat.lt_succ_self _
      · exact Nat.lt_succ_of_lt (h4 p hm)
    · intro p hp
      rcases mem_ainsert.1 hp with rfl | ⟨hm, _⟩
      · exact Nat.lt_succ_self _
      · exact Nat.lt_succ_of_lt (h5 p hm)
    · intro f hf
      obtain ⟨hlt, hne⟩ := h6 f hf
      refine ⟨Nat.lt_succ_of_lt hlt, ?_⟩
      intro p hp
      rcases mem_ainsert.1 hp with rfl | ⟨hm, _⟩
      · exact Nat.ne_of_gt hlt
      · exact hne p hm
    · intro t ht; exact Nat.lt_succ_of_lt (h7 t ht)

theorem inv_handle {s : StreamState} (m : Msg) (h : Inv s) :
    Inv (handle_message s m).2 := by
  obtain ⟨h1, h2, h3, h4, h5, h6, h7⟩ := h
  cases hid : alookup m STREAM_KEY_ID with
  | none => simpa [handle_message, hid] using ⟨h1, h2, h3, h4, h5, h6, h7⟩
  | some v =>
    cases hfm : findMatch s.message_futures v with
    | none => simpa [handle_message, hid, hfm] using ⟨h1, h2, h3, h4, h5, h6, h7⟩
    | some mf =>
      obtain ⟨mid, fid⟩ := mf
      have hmem : (mid, fid) ∈ s.message_futures := (findMatch_mem hfm).1
      have hkey : ∀ p ∈ aerase s.message_futures mid, p.2 ≠ fid := by
        intro p hp hc
        obtain ⟨hm, hne⟩ := mem_aerase.1 hp
        exact hne (congrArg Prod.fst (List.inj_on_of_nodup_map h2 hm hmem hc))
      have herased : ∀ (newF : FutureState),
          Inv { s with
                  future_states := ainsert s.future_states fid newF
                  message_futures := aerase s.message_futures mid } := by
        intro newF
        refine ⟨?_, ?_, ?_, ?_, ?_, ?_, ?_⟩ <;> simp only [TablePending]
        · intro p hp
          rw [alookup_ainsert_ne _ _ (hkey p hp)]
          exact h1 p (mem_aerase.1 hp).1
        · exact nodup_snd_aerase _ h2
        · intro p hp; exact h3 p (mem_aerase.1 hp).1
        · intro p hp; exact h4 p (mem_aerase.1 hp).1
        · intro p hp
          rcases mem_ainsert.1 hp with rfl | ⟨hm, _⟩
          · exact h3 _ hmem
          · exact h5 p hm
        · intro f hf
          obtain ⟨hlt, hne⟩ := h6 f hf
          exact ⟨hlt, fun p hp => hne p (mem_aerase.1 hp).1⟩
        · exact h7
      have hdropped :
          Inv { s with message_futures := aerase s.message_futures mid } := by
        refine ⟨?_, ?_, ?_, ?_, ?_, ?_, ?_⟩ <;> simp only [TablePending]
        · intro p hp; exact h1 p (mem_aerase.1 hp).1
        · exact nodup_snd_aerase _ h2
        · intro p hp; exact h3 p (mem_aerase.1 hp).1
        · intro p hp; exact h4 p (mem_aerase.1 hp).1
        · exact h5
        · intro f hf
          obtain ⟨hlt, hne⟩ := h6 f hf
          exact ⟨hlt, fun p hp => hne p (mem_aerase.1 hp).1⟩
        · exact h7
      cases hres : alookup m STREAM_KEY_RESULT with
      | some r => simpa [handle_message, hid, hfm, hres] using herased _
      | none =>
        cases herr : alookup m STREAM_KEY_ERROR with
        | none => simpa [handle_message, hid, hfm, hres, herr] using hdropped
        | some e =>
          cases hc : objLookup e ERROR_KEY_CODE with
          | none =>
            simpa [handle_message, hid, hfm, hres, herr, hc] using
              ⟨h1, h2, h3, h4, h5, h6, h7⟩
          | some c =>
            cases hm : objLookup e ERROR_KEY_MESSAGE with
            | none =>
              simpa [handle_message, hid, hfm, hres, herr, hc, hm] using
                ⟨h1, h2, h3, h4, h5, h6, h7⟩
            | some em =>
              simpa [handle_message, hid, hfm, hres, herr, hc, hm] using herased _

theorem inv_applyOp {s : StreamState} (o : Op) (h : Inv s) : Inv (applyOp s o) := by
  cases o with
  | connect => exact inv_connect h
  | close => exact inv_close h
  | reconnect => exact inv_reconnect h
  | setSocket => exact inv_set_socket h
  | send m => exact inv_send m h
  | handle m => exact inv_handle m h

theorem inv_init : Inv initState := by
  refine ⟨?_, ?_, ?_, ?_, ?_, ?_, ?_⟩ <;> simp [initState, TablePending]

theorem inv_run {s : StreamState} (ops : List Op) (h : Inv s) : Inv (run s ops) := by
  induction ops generalizing s with
  | nil => exact h
  | cons o ops ih => exact ih (inv_applyOp o h)

theorem alookup_aerase_of_none {κ α : Type} [DecidableEq κ]
    {l : List (κ × α)} {k' : κ} (k : κ) (h : alookup l k' = none) :
    alookup (aerase l k) k' = none := by
  by_cases hk : k' = k
  · subst hk; exact alookup_aerase_self l k'
  · rw [alookup_aerase_ne l hk]; exact h

theorem message_id_applyOp (s : StreamState) (o : Op) :
    s.message_id ≤ (applyOp s o).message_id := by
  cases o with
  | connect => simp [applyOp, connect, before_connect, create_future]
  | close => cases hc : s.conn_task <;> simp [applyOp, close, hc]
  | reconnect => simp [applyOp, reconnect, before_connect, create_future]
  | setSocket => cases hof : s.open_future <;> simp [applyOp, set_socket, hof]
  | send m =>
    cases hs : s.socket with
    | none => cases hof : s.open_future <;> simp [applyOp, send, hs, hof]
    | some sock => simp [applyOp, send, hs]
  | handle m =>
    cases hid : alookup m STREAM_KEY_ID with
    | none => simp [applyOp, handle_message, hid]
    | some v =>
      cases hfm : findMatch s.message_futures v with
      | none => simp [applyOp, handle_message, hid, hfm]
      | some mf =>
        obtain ⟨mid, fid⟩ := mf
        cases hres : alookup m STREAM_KEY_RESULT with
        | some r => simp [applyOp, handle_message, hid, hfm, hres]
        | none =>
          cases herr : alookup m STREAM_KEY_ERROR with
          | none => simp [applyOp, handle_message, hid, hfm, hres, herr]
          | some e =>
            cases hc : objLookup e ERROR_KEY_CODE with
            | none => simp [applyOp, handle_message, hid, hfm, hres, herr, hc]
            | some c =>
              cases hm : objLookup e ERROR_KEY_MESSAGE with
              | none => simp [applyOp, handle_message, hid, hfm, hres, herr, hc, hm]
              | some em => simp [applyOp, handle_message, hid, hfm, hres, herr, hc, hm]

theorem untracked_applyOp {s : StreamState} {fid : Nat} (o : Op)
    (h : Untracked s fid) : Untracked (applyOp s o) fid := by
  obtain ⟨hlt, hmf, hof⟩ := h
  cases o with
  | connect =>
    refine ⟨?_, ?_, ?_⟩ <;>
      simp only [applyOp, connect, before_connect, create_future]
    · omega
    · exact hmf
    · intro f hf
      obtain rfl : f = s.next_fresh := by simpa [Option.toList] using hf
      omega
  | close =>
    cases hc : s.conn_task with
    | none =>
      simp only [applyOp, close, hc]
      exact ⟨hlt, hmf, hof⟩
    | some t =>
      simp only [applyOp, close, hc]
      exact ⟨hlt, hmf, hof⟩
  | reconnect =>
    refine ⟨?_, ?_, ?_⟩ <;>
      simp only [applyOp, reconnect, before_connect, create_future]
    · omega
    · exact hmf
    · intro f hf
      obtain rfl : f = s.next_fresh := by simpa [Option.toList] using hf
      omega
  | setSocket =>
    cases hofs : s.open_future with
    | none =>
      refine ⟨?_, ?_, ?_⟩ <;> simp only [applyOp, set_socket, hofs]
      · omega
      · exact hmf
      · simp [hofs, Option.toList]
    | some f =>
      refine ⟨?_, ?_, ?_⟩ <;> simp only [applyOp, set_socket, hofs]
      · omega
      · exact hmf
      · simp [Option.toList]
  | send m =>
    cases hs : s.socket with
    | none =>
      cases hofs : s.open_future with
      | some f =>
        simp only [applyOp, send, hs, hofs]
        exact ⟨hlt, hmf, hof⟩
      | none =>
        simp only [applyOp, send, hs, hofs]
        exact ⟨hlt, hmf, hof⟩
    | some sock =>
      refine ⟨?_, ?_, ?_⟩ <;> simp only [applyOp, send, hs]
      · omega
      · intro p hp
        rcases mem_ainsert.1 hp with rfl | ⟨hm, _⟩
        · exact Nat.ne_of_gt hlt
        · exact hmf p hm
      · exact hof
  | handle m =>
    cases hid : alookup m STREAM_KEY_ID with
    | none =>
      simp only [applyOp, handle_message, hid]
      exact ⟨hlt, hmf, hof⟩
    | some v =>
      cases hfm : findMatch s.message_futures v with
      | none =>
        simp only [applyOp, handle_message, hid, hfm]
        exact ⟨hlt, hmf, hof⟩
      | some mf =>
        obtain ⟨mid, fid'⟩ := mf
        have hsub : ∀ p ∈ aerase s.message_futures mid, p.2 ≠ fid :=
          fun p hp => hmf p (mem_aerase.1 hp).1
        cases hres : alookup m STREAM_KEY_RESULT with
        | some r =>
          simp only [applyOp, handle_message, hid, hfm, hres]
          exact ⟨hlt, hsub, hof⟩
        | none =>
          cases herr : alookup m STREAM_KEY_ERROR with
          | none =>
            simp only [applyOp, handle_message, hid, hfm, hres, herr]
            exact ⟨hlt, hsub, hof⟩
          | some e =>
            cases hc : objLookup e ERROR_KEY_CODE with
            | none =>
              simp only [applyOp, handle_message, hid, hfm, hres, herr, hc]
              exact ⟨hlt, hmf, hof⟩
            | some c =>
              cases hm : objLookup e ERROR_KEY_MESSAGE with
              | none =>
                simp only [applyOp, handle_message, hid, hfm, hres, herr, hc, hm]
                exact ⟨hlt, hmf, hof⟩
              | some em =>
                simp only [applyOp, handle_message, hid, hfm, hres, herr, hc, hm]
                exact ⟨hlt, hsub, hof⟩

theorem untracked_lookup_applyOp {s : StreamState} {fid : Nat} (o : Op)
    (h : Untracked s fid) :
    alookup (applyOp s o).future_states fid = alookup s.future_states fid := by
  obtain ⟨hlt, hmf, hof⟩ := h
  cases o with
  | connect =>
    simp only [applyOp, connect, before_connect, create_future]
    exact alookup_ainsert_ne _ _ (Nat.ne_of_lt hlt)
  | close => cases hc : s.conn_task <;> simp only [applyOp, close, hc]
  | reconnect =>
    simp only [applyOp, reconnect, before_connect, create_future]
    exact alookup_ainsert_ne _ _ (Nat.ne_of_lt hlt)
  | setSocket =>
    cases hofs : s.open_future with
    | none => simp only [applyOp, set_socket, hofs]
    | some f =>
      have hfne : f ≠ fid := hof f (by simp [hofs, Option.toList])
      simp only [applyOp, set_socket, hofs]
      exact alookup_ainsert_ne _ _ (Ne.symm hfne)
  | send m =>
    cases hs : s.socket with
    | none => cases hofs : s.open_future <;> simp only [applyOp, send, hs, hofs]
    | some sock =>
      simp only [applyOp, send, hs]
      exact alookup_ainsert_ne _ _ (Nat.ne_of_lt hlt)
  | handle m =>
    cases hid : alookup m STREAM_KEY_ID with
    | none => simp only [applyOp, handle_message, hid]
    | some v =>
      cases hfm : findMatch s.message_futures v with
      | none => simp only [applyOp, handle_message, hid, hfm]
      | some mf =>
        obtain ⟨mid, fid'⟩ := mf
        have hne : fid ≠ fid' :=
          Ne.symm (hmf (mid, fid') (findMatch_mem hfm).1)
        cases hres : alookup m STREAM_KEY_RESULT with
        | some r =>
          simp only [applyOp, handle_message, hid, hfm, hres]
          exact alookup_ainsert_ne _ _ hne
        | none =>
          cases herr : alookup m STREAM_KEY_ERROR with
          | none => simp only [applyOp, handle_message, hid, hfm, hres, herr]
          | some e =>
            cases hc : objLookup e ERROR_KEY_CODE with
            | none => simp only [applyOp, handle_message, hid, hfm, hres, herr, hc]
            | some c =>
              cases hm : objLookup e ERROR_KEY_MESSAGE with
              | none =>
                simp only [applyOp, handle_message, hid, hfm, hres, herr, hc, hm]
              | some em =>
                simp only [applyOp, handle_message, hid, hfm, hres, herr, hc, hm]
                exact alookup_ainsert_ne _ _ hne


theorem untracked_run {s : StreamState} {fid : Nat} (ops : List Op)
    (h : Untracked s fid) :
    Untracked (run s ops) fid ∧
      alookup (run s ops).future_states fid = alookup s.future_states fid := by
  induction ops generalizing s with
  | nil => exact ⟨h, rfl⟩
  | cons o ops ih =>
    obtain ⟨h'', heq'⟩ := ih (untracked_applyOp o h)
    exact ⟨h'', heq'.trans (untracked_lookup_applyOp o h)⟩

theorem keyRetired_applyOp {s : StreamState} {mid : Nat} (o : Op)
    (h : KeyRetired s mid) : KeyRetired (applyOp s o) mid := by
  obtain ⟨hnone, hlt⟩ := h
  have hmono := message_id_applyOp s o
  cases o with
  | connect =>
    exact ⟨by simpa [applyOp, connect, before_connect, create_future] using hnone,
      by simpa [applyOp, connect, before_connect, create_future] using hlt⟩
  | close =>
    cases hc : s.conn_task with
    | none =>
      simp only [applyOp, close, hc]
      exact ⟨hnone, hlt⟩
    | some t =>
      simp only [applyOp, close, hc]
      exact ⟨hnone, hlt⟩
  | reconnect =>
    exact ⟨by simpa [applyOp, reconnect, before_connect, create_future] using hnone,
      by simpa [applyOp, reconnect, before_connect, create_future] using hlt⟩
  | setSocket =>
    cases hof : s.open_future with
    | none => exact ⟨by simpa [applyOp, set_socket, hof] using hnone,
        by simpa [applyOp, set_socket, hof] using hlt⟩
    | some f => exact ⟨by simpa [applyOp, set_socket, hof] using hnone,
        by simpa [applyOp, set_socket, hof] using hlt⟩
  | send m =>
    cases hs : s.socket with
    | none =>
      cases hof : s.open_future with
      | some f => simpa [applyOp, send, hs, hof, KeyRetired] using ⟨hnone, hlt⟩
      | none => simpa [applyOp, send, hs, hof, KeyRetired] using ⟨hnone, hlt⟩
    | some sock =>
      refine ⟨?_, ?_⟩ <;> simp only [applyOp, send, hs]
      · rw [alookup_ainsert_ne _ _ (Nat.ne_of_lt hlt)]
        exact hnone
      · omega
  | handle m =>
    cases hid : alookup m STREAM_KEY_ID with
    | none => simpa [applyOp, handle_message, hid, KeyRetired] using ⟨hnone, hlt⟩
    | some v =>
      cases hfm : findMatch s.message_futures v with
      | none => simpa [applyOp, handle_message, hid, hfm, KeyRetired] using ⟨hnone, hlt⟩
      | some mf =>
        obtain ⟨mid', fid'⟩ := mf
        have hkeep := alookup_aerase_of_none mid' hnone
        cases hres : alookup m STREAM_KEY_RESULT with
        | some r =>
          simpa [applyOp, handle_message, hid, hfm, hres, KeyRetired] using ⟨hkeep, hlt⟩
        | none =>
          cases herr : alookup m STREAM_KEY_ERROR with
          | none =>
            simpa [applyOp, handle_message, hid, hfm, hres, herr, KeyRetired] using
              ⟨hkeep, hlt⟩
          | some e =>
            cases hc : objLookup e ERROR_KEY_CODE with
            | none =>
              simpa [applyOp, handle_message, hid, hfm, hres, herr, hc, KeyRetired] using
                ⟨hnone, hlt⟩
            | some c =>
              cases hm : objLookup e ERROR_KEY_MESSAGE with
              | none =>
                simpa [applyOp, handle_message, hid, hfm, hres, herr, hc, hm,
                  KeyRetired] using ⟨hnone, hlt⟩
              | some em =>
                simpa [applyOp, handle_message, hid, hfm, hres, herr, hc, hm,
                  KeyRetired] using ⟨hkeep, hlt⟩

theorem keyRetired_run {s : StreamState} {mid : Nat} (ops : List Op)
    (h : KeyRetired s mid) : KeyRetired (run s ops) mid := by
  induction ops generalizing s with
  | nil => exact h
  | cons o ops ih => exact ih (keyRetired_applyOp o h)

theorem runIds_lower_bound {ops : List Op} :
    ∀ {s : StreamState} {x : Nat}, x ∈ runIds s ops → s.message_id ≤ x := by
  induction ops with
  | nil => intro s x hx; simp [runIds] at hx
  | cons o ops ih =>
    intro s x hx
    simp only [runIds, List.mem_append] at hx
    rcases hx with hx | hx
    · cases o with
      | send m =>
        cases hs : s.socket with
        | none => simp [opSendIds, hs] at hx
        | some sock =>
          obtain rfl : x = s.message_id := by simpa [opSendIds, hs] using hx
          exact Nat.le_refl _
      | connect => simp [opSendIds] at hx
      | close => simp [opSendIds] at hx
      | reconnect => simp [opSendIds] at hx
      | setSocket => simp [opSendIds] at hx
      | handle m => simp [opSendIds] at hx
    · exact Nat.le_trans (message_id_applyOp s o) (ih hx)

theorem runIds_sorted (ops : List Op) :
    ∀ s : StreamState, List.Sorted (· < ·) (runIds s ops) := by
  induction ops with
  | nil => intro s; simp [runIds]
  | cons o ops ih =>
    intro s
    cases o with
    | send m =>
      cases hs : s.socket with
      | none => simpa [runIds, opSendIds, hs] using ih (applyOp s (Op.send m))
      | some sock =>
        have hbound : ∀ x ∈ runIds (applyOp s (Op.send m)) ops, s.message_id < x := by
          intro x hx
          have h1 := runIds_lower_bound hx
          have h2 : (applyOp s (Op.send m)).message_id = s.message_id + 1 := by
            simp [applyOp, send, hs]
          omega
        simp only [runIds, opSendIds, hs, List.singleton_append]
        exact List.sorted_cons.2 ⟨hbound, ih (applyOp s (Op.send m))⟩
    | connect => simpa [runIds, opSendIds] using ih (applyOp s Op.connect)
    | close => simpa [runIds, opSendIds] using ih (applyOp s Op.close)
    | reconnect => simpa [runIds, opSendIds] using ih (applyOp s Op.reconnect)
    | setSocket => simpa [runIds, opSendIds] using ih (applyOp s Op.setSocket)
    | handle m => simpa [runIds, opSendIds] using ih (applyOp s (Op.handle m))

theorem dispatchAux_sync_failure (p : JsonValue) (post : List Handler)
    (f : JsonValue → Except Nat Unit) (e : Nat) (hf : f p = Except.error e) :
    ∀ (pre : List Handler) (i : Nat) (coros : List (Nat × Except Nat Unit)),
      (∀ h ∈ pre, syncOkOn p h) →
      (dispatchAux p i (pre ++ Handler.sync f :: post) coros).raised = some e ∧
      ∀ j ∈ (dispatchAux p i (pre ++ Handler.sync f :: post) coros).invoked,
        j < i + pre.length + 1 := by
  intro pre
  induction pre with
  | nil =>
    intro i coros _
    constructor
    · simp [dispatchAux, hf]
    · intro j hj
      simp only [List.nil_append, dispatchAux, hf] at hj
      obtain rfl : j = i := by simpa using hj
      omega
  | cons h0 rest ih =>
    intro i coros hpre
    cases h0 with
    | sync g =>
      have hg : g p = Except.ok () := hpre _ (List.mem_cons_self ..)
      obtain ⟨h1, h2⟩ :=
        ih (i + 1) coros (fun h hm => hpre h (List.mem_cons_of_mem _ hm))
      simp only [List.cons_append, dispatchAux, hg]
      refine ⟨h1, ?_⟩
      intro j hj
      simp only [List.mem_cons] at hj
      rcases hj with rfl | hj
      · simp only [List.length_cons]; omega
      · have := h2 j hj
        simp only [List.length_cons]; omega
    | async g =>
      obtain ⟨h1, h2⟩ :=
        ih (i + 1) (coros ++ [(i, g p)])
          (fun h hm => hpre h (List.mem_cons_of_mem _ hm))
      simp only [List.cons_append, dispatchAux]
      refine ⟨h1, ?_⟩
      intro j hj
      have := h2 j hj
      simp only [List.length_cons]; omega

/-- Claim C1: for every set of concurrently issued `send()` calls on one
`Stream`, a response frame whose id matches a pending request resolves exactly
that caller's future with exactly the frame's payload — the `result` value
when a `result` field is present, or the `StreamSubscribeException` built from
the `error` field's `code`/`msg` when an `error` field is present — and
removes its table entry, while every other pending caller's entry and
still-pending future are untouched.  So each response frame, of either shape,
resolves at most one waiting caller, regardless of the order in which
responses arrive. -/
theorem response_resolves_only_matching_caller
    (s : StreamState) (msg : Msg) (mid fid : Nat)
    (hinv : Inv s)
    (hid : alookup msg STREAM_KEY_ID = some (JsonValue.num (Int.ofNat mid)))
    (hpend : alookup s.message_futures mid = some fid) :
    (∀ v, alookup msg STREAM_KEY_RESULT = some v →
      (handle_message s msg).1 = HandleResult.resolvedResult mid fid v ∧
      alookup ((handle_message s msg).2).future_states fid =
        some (FutureState.resolvedResult v) ∧
      alookup ((handle_message s msg).2).message_futures mid = none ∧
      ∀ mid' fid', mid' ≠ mid → alookup s.message_futures mid' = some fid' →
        alookup ((handle_message s msg).2).message_futures mid' = some fid' ∧
        alookup ((handle_message s msg).2).future_states fid' =
          some FutureState.pending) ∧
    (∀ e c em, alookup msg STREAM_KEY_RESULT = none →
      alookup msg STREAM_KEY_ERROR = some e →
      objLookup e ERROR_KEY_CODE = some c →
      objLookup e ERROR_KEY_MESSAGE = some em →
      (handle_message s msg).1 = HandleResult.resolvedError mid fid c em ∧
      alookup ((handle_message s msg).2).future_states fid =
        some (FutureState.resolvedError c em) ∧
      alookup ((handle_message s msg).2).message_futures mid = none ∧
      ∀ mid' fid', mid' ≠ mid → alookup s.message_futures mid' = some fid' →
        alookup ((handle_message s msg).2).message_futures mid' = some fid' ∧
        alookup ((handle_message s msg).2).future_states fid' =
          some FutureState.pending) := by
  have hfm : findMatch s.message_futures (JsonValue.num (Int.ofNat mid)) =
      some (mid, fid) := by
    rw [findMatch_eq, hpend]; rfl
  have hmem : (mid, fid) ∈ s.message_futures := alookup_mem hpend
  have hothers : ∀ (newF : FutureState),
      ∀ mid' fid', mid' ≠ mid → alookup s.message_futures mid' = some fid' →
        alookup (aerase s.message_futures mid) mid' = some fid' ∧
        alookup (ainsert s.future_states fid newF) fid' =
          some FutureState.pending := by
    intro newF mid' fid' hne hpend'
    have hmem' : (mid', fid') ∈ s.message_futures := alookup_mem hpend'
    have hfne : fid' ≠ fid := snd_ne_of_nodup hinv.2.1 hmem' hmem hne
    constructor
    · rw [alookup_aerase_ne _ hne]
      exact hpend'
    · rw [alookup_ainsert_ne _ _ hfne]
      exact hinv.1 _ hmem'
  constructor
  · intro v hres
    have hstep : handle_message s msg =
        (HandleResult.resolvedResult mid fid v,
         { s with
            future_states :=
              ainsert s.future_states fid (FutureState.resolvedResult v)
            message_futures := aerase s.message_futures mid }) := by
      simp only [handle_message, hid, hfm, hres]
    rw [hstep]
    exact ⟨rfl, alookup_ainsert_self .., alookup_aerase_self .., hothers _⟩
  · intro e c em hres herr hc hm
    have hstep : handle_message s msg =
        (HandleResult.resolvedError mid fid c em,
         { s with
            future_states :=
              ainsert s.future_states fid (FutureState.resolvedError c em)
            message_futures := aerase s.message_futures mid }) := by
      simp only [handle_message, hid, hfm, hres, herr, hc, hm]
    rw [hstep]
    exact ⟨rfl, alookup_ainsert_self .., alookup_aerase_self .., hothers _⟩

/-- Witness for C1 at a concrete state: after `connect`, socket open, and one
`send` (request id `0`, future `4`), handling the frame with id `0` and a null
`result` resolves exactly future `4` with the null result and empties the
table; handling instead the error frame with id `0` fails exactly future `4`
with the frame's `code`/`msg` and also empties the table. -/
theorem response_resolves_only_matching_caller_witness :
    (handle_message demoState demoResponse).1 =
      HandleResult.resolvedResult 0 4 JsonValue.null ∧
    alookup ((handle_message demoState demoResponse).2).future_states 4 =
      some (FutureState.resolvedResult JsonValue.null) ∧
    alookup ((handle_message demoState demoResponse).2).message_futures 0 = none ∧
    (handle_message demoState demoError).1 =
      HandleResult.resolvedError 0 4 (JsonValue.num (-1))
        (JsonValue.str "bad param") ∧
    alookup ((handle_message demoState demoError).2).future_states 4 =
      some (FutureState.resolvedError (JsonValue.num (-1))
        (JsonValue.str "bad param")) ∧
    alookup ((handle_message demoState demoError).2).message_futures 0 = none := by
  obtain ⟨hresPart, _⟩ :=
    response_resolves_only_matching_caller demoState demoResponse 0 4
      (by decide) (by decide) (by decide)
  obtain ⟨_, herrPart⟩ :=
    response_resolves_only_matching_caller demoState demoError 0 4
      (by decide) (by decide) (by decide)
  obtain ⟨a1, a2, a3, _⟩ := hresPart JsonValue.null (by decide)
  obtain ⟨b1, b2, b3, _⟩ :=
    herrPart demoErrorPayload (JsonValue.num (-1)) (JsonValue.str "bad param")
      (by decide) (by decide) (by decide) (by decide)
  exact ⟨a1, a2, a3, b1, b2, b3⟩

/-- Claim C2 is false as stated: `connect()` is not idempotent on the
connection state.  Calling `connect()` a second time on a freshly constructed
stream changes the state (a fresh open-socket gate and a fresh connection task
replace the previous ones). -/
theorem connect_not_idempotent_cex :
    connect (connect initState) ≠ connect initState := by decide

/-- Claim C2 (amended): calling `connect()` again does not leave the state
unchanged — each call installs a freshly created open-socket wait gate and a
freshly created connection task, replacing the previous ones — while the id
counter, the pending table, the socket field and the closing flag are
untouched; `connect()` itself is a plain synchronous method (it is not an
`async def`), so every call returns `self` immediately without waiting for the
socket to open, which the embedding reflects by `connect` being a total
function with no awaiting outcome. -/
theorem connect_replaces_gate_and_task (s : StreamState) (hinv : Inv s) :
    (connect s).open_future = some s.next_fresh ∧
    (connect s).conn_task = some (s.next_fresh + 1) ∧
    (connect s).open_future ≠ s.open_future ∧
    (connect s).conn_task ≠ s.conn_task ∧
    (connect s).message_id = s.message_id ∧
    (connect s).message_futures = s.message_futures ∧
    (connect s).socket = s.socket ∧
    (connect s).closing = s.closing := by
  have hopen : (connect s).open_future = some s.next_fresh := by
    simp [connect, before_connect, create_future]
  have htask : (connect s).conn_task = some (s.next_fresh + 1) := by
    simp [connect, before_connect, create_future]
  refine ⟨hopen, htask, ?_, ?_, ?_, ?_, ?_, ?_⟩
  · rw [hopen]
    cases hof : s.open_future with
    | none => simp
    | some f =>
      have hf : f < s.next_fresh :=
        (hinv.2.2.2.2.2.1 f (by simp [hof, Option.toList])).1
      simp only [ne_eq, Option.some.injEq]
      omega
  · rw [htask]
    cases hct : s.conn_task with
    | none => simp
    | some t =>
      have ht : t < s.next_fresh :=
        hinv.2.2.2.2.2.2 t (by simp [hct, Option.toList])
      simp only [ne_eq, Option.some.injEq]
      omega
  · simp [connect, before_connect, create_future]
  · simp [connect, before_connect, create_future]
  · simp [connect, before_connect, create_future]
  · simp [connect, before_connect, create_future]

/-- Witness for the amended C2 at the freshly constructed stream. -/
theorem connect_replaces_gate_and_task_witness :
    (connect initState).open_future = some initState.next_fresh ∧
    (connect initState).conn_task = some (initState.next_fresh + 1) ∧
    (connect initState).open_future ≠ initState.open_future ∧
    (connect initState).conn_task ≠ initState.conn_task ∧
    (connect initState).message_id = initState.message_id ∧
    (connect initState).message_futures = initState.message_futures ∧
    (connect initState).socket = initState.socket ∧
    (connect initState).closing = initState.closing :=
  connect_replaces_gate_and_task initState (by decide)

/-- Claim C3 is false as stated: after a completed `close()` the
connection-task field is still set (close never clears `self._conn_task`), so
a second `close()` completes normally instead of raising
`StreamDisconnectedException`. -/
theorem close_twice_cex :
    (close ((close (connect initState)).2)).1 = CloseResult.closed ∧
    (close ((close (connect initState)).2)).1 ≠ CloseResult.raisedNotConnected := by
  decide

/-- Claim C3 (amended): `close()` raises `StreamDisconnectedException`
(`NotConnected`) exactly when `connect()` has never been called (the
connection-task field is unset); since `close()` never clears that field, a
second `close()` after a completed first one returns normally instead of
failing. -/
theorem close_raises_iff_never_connected (s : StreamState) :
    ((close s).1 = CloseResult.raisedNotConnected ↔ s.conn_task = none) ∧
    ((close s).2).conn_task = s.conn_task ∧
    (close ((close (connect s)).2)).1 = CloseResult.closed := by
  refine ⟨?_, ?_, ?_⟩
  · cases hc : s.conn_task <;> simp [close, hc]
  · cases hc : s.conn_task <;> simp [close, hc]
  · simp [close, connect, before_connect, create_future]

/-- Claim C4 is false as stated: `ProcessorBase.dispatch` does not isolate
consumer failures.  With two synchronous consumers of which the first raises,
the second is never invoked and the exception propagates to the caller of
`dispatch` (nothing is logged). -/
theorem dispatch_failure_not_isolated_cex :
    (dispatch [failingHandler, okHandler] JsonValue.null).raised = some 7 ∧
    1 ∉ (dispatch [failingHandler, okHandler] JsonValue.null).invoked := by
  decide

/-- Claim C4 (amended): a failing consumer does poison the dispatch — when a
synchronous consumer raises and every consumer iterated before it runs
cleanly, the exception propagates out of `dispatch` to its caller and no
consumer after the failing one (in iteration order) is ever invoked; `dispatch`
contains no exception handling and logs nothing. -/
theorem dispatch_sync_failure_propagates
    (pre post : List Handler) (f : JsonValue → Except Nat Unit) (p : JsonValue)
    (e : Nat) (hpre : ∀ h ∈ pre, syncOkOn p h) (hf : f p = Except.error e) :
    (dispatch (pre ++ Handler.sync f :: post) p).raised = some e ∧
    ∀ j ∈ (dispatch (pre ++ Handler.sync f :: post) p).invoked, j ≤ pre.length := by
  obtain ⟨h1, h2⟩ := dispatchAux_sync_failure p post f e hf pre 0 [] hpre
  refine ⟨h1, fun j hj => ?_⟩
  have := h2 j hj
  omega

/-- Witness for the amended C4: one failing synchronous consumer followed by
an ok consumer makes `dispatch` raise exception code `5`. -/
theorem dispatch_sync_failure_propagates_witness :
    (dispatch ([] ++ Handler.sync (fun _ => Except.error 5) :: [okHandler])
        JsonValue.null).raised = some 5 :=
  (dispatch_sync_failure_propagates [] [okHandler] (fun _ => Except.error 5)
    JsonValue.null 5 (by simp) rfl).1

/-- Claim C5: an inbound frame whose id matches a pending request but which
carries neither a `result` nor an `error` field does not resolve the pending
future with anything (the future store is unchanged) and raises nothing out of
the message handler (the outcome is the silent `droppedEntry` step, not a
raise). -/
theorem frame_without_payload_not_resolved
    (s : StreamState) (msg : Msg) (v : JsonValue) (mid fid : Nat)
    (hid : alookup msg STREAM_KEY_ID = some v)
    (hfm : findMatch s.message_futures v = some (mid, fid))
    (hres : alookup msg STREAM_KEY_RESULT = none)
    (herr : alookup msg STREAM_KEY_ERROR = none) :
    (handle_message s msg).1 = HandleResult.droppedEntry mid fid ∧
    ((handle_message s msg).2).future_states = s.future_states := by
  simp [handle_message, hid, hfm, hres, herr]

/-- Witness for C5 at a concrete state with one pending request. -/
theorem frame_without_payload_not_resolved_witness :
    (handle_message demoState demoNoPayload).1 = HandleResult.droppedEntry 0 4 ∧
    ((handle_message demoState demoNoPayload).2).future_states =
      demoState.future_states :=
  frame_without_payload_not_resolved demoState demoNoPayload
    (JsonValue.num (Int.ofNat 0)) 0 4 (by decide) (by decide) (by decide) (by decide)

/-- Claim C6: request ids assigned by `send()` over any run of operations form
a strictly increasing (hence never-reused) sequence, and neither `_reconnect`
(run on socket failure before a retry) nor `close()` resets the id counter, so
sends after a reconnect continue the same id sequence. -/
theorem send_ids_strictly_increasing (s : StreamState) (ops : List Op) :
    List.Sorted (· < ·) (runIds s ops) ∧
    (runIds s ops).Nodup ∧
    (reconnect s).message_id = s.message_id ∧
    ((close s).2).message_id = s.message_id := by
  have hs := runIds_sorted ops s
  refine ⟨hs, hs.nodup, ?_, ?_⟩
  · simp [reconnect, before_connect, create_future]
  · cases hc : s.conn_task <;> simp [close, hc]

/-- Claim C7: `send()` on a stream whose `connect()` was never called (no
socket and no open gate) raises `StreamDisconnectedException` immediately: the
outcome is the raising step, not a suspension, and the returned state is the
argument state itself, so the pending table and the id counter are untouched. -/
theorem send_never_connected_raises (s : StreamState) (msg : Msg)
    (hsock : s.socket = none) (hopen : s.open_future = none) :
    send s msg = (SendStep.raisedNotConnected, s) := by
  simp [send, hsock, hopen]

/-- Witness for C7 at the freshly constructed stream. -/
theorem send_never_connected_raises_witness :
    send initState [] = (SendStep.raisedNotConnected, initState) :=
  send_never_connected_raises initState [] rfl rfl

/-- Claim C8: along every run of operations from a fresh stream, the
pending-request table never contains an entry whose future is already
resolved, in other words no table entry is keyed by an id for which the
waiting caller has already received a terminal result.  The message handler
resolves a future and deletes its entry in one atomic step (there is no
suspension point between `set_result`/`set_exception` and the `del`), so the
caller can never observe a terminal result while the entry is still present. -/
theorem pending_table_invariant (ops : List Op) :
    TablePending (run initState ops) ∧ Inv (run initState ops) :=
  ⟨(inv_run ops inv_init).1, inv_run ops inv_init⟩

/-- Claim C9: when a frame matches a pending id but carries neither `result`
nor `error`, the handler deletes the table entry anyway; from then on the
waiting caller's future stays pending forever (no sequence of operations ever
resolves it) and any later frame carrying the same id is handled as an
uncorrelated inbound event. -/
theorem dropped_entry_uncorrelated_forever
    (s : StreamState) (msg : Msg) (v : JsonValue) (mid fid : Nat)
    (hinv : Inv s)
    (hid : alookup msg STREAM_KEY_ID = some v)
    (hfm : findMatch s.message_futures v = some (mid, fid))
    (hres : alookup msg STREAM_KEY_RESULT = none)
    (herr : alookup msg STREAM_KEY_ERROR = none) :
    alookup ((handle_message s msg).2).message_futures mid = none ∧
    (∀ ops : List Op,
        alookup (run ((handle_message s msg).2) ops).future_states fid =
          some FutureState.pending) ∧
    (∀ (ops : List Op) (msg2 : Msg),
        alookup msg2 STREAM_KEY_ID = some (JsonValue.num (Int.ofNat mid)) →
        (handle_message (run ((handle_message s msg).2) ops) msg2).1 =
          HandleResult.emittedOnMessage msg2) := by
  have hmem : (mid, fid) ∈ s.message_futures := (findMatch_mem hfm).1
  have hstep : (handle_message s msg).2 =
      { s with message_futures := aerase s.message_futures mid } := by
    simp only [handle_message, hid, hfm, hres, herr]
  have huntracked :
      Untracked { s with message_futures := aerase s.message_futures mid } fid := by
    refine ⟨hinv.2.2.1 _ hmem, ?_, ?_⟩
    · intro p hp
      obtain ⟨hm, hne⟩ := mem_aerase.1 hp
      exact fun hc =>
        hne (congrArg Prod.fst (List.inj_on_of_nodup_map hinv.2.1 hm hmem hc))
    · intro f hf hc
      exact (hinv.2.2.2.2.2.1 f hf).2 (mid, fid) hmem hc.symm
  have hretired :
      KeyRetired { s with message_futures := aerase s.message_futures mid } mid :=
    ⟨alookup_aerase_self .., hinv.2.2.2.1 _ hmem⟩
  have hpend0 : alookup s.future_states fid = some FutureState.pending :=
    hinv.1 _ hmem
  rw [hstep]
  refine ⟨alookup_aerase_self .., ?_, ?_⟩
  · intro ops
    rw [(untracked_run ops huntracked).2]
    exact hpend0
  · intro ops msg2 hid2
    obtain ⟨hnone, _⟩ := keyRetired_run ops hretired
    have hfm2 : findMatch
        (run { s with message_futures := aerase s.message_futures mid }
          ops).message_futures
        (JsonValue.num (Int.ofNat mid)) = none := by
      rw [findMatch_eq, hnone]
      rfl
    simp only [handle_message, hid2, hfm2]

/-- Witness for C9 at a concrete state with one pending request: the frame
with id `0` and no payload empties the table, future `4` is still pending
after a further `connect`, and a second frame with id `0` is forwarded to
`on_message`. -/
theorem dropped_entry_uncorrelated_forever_witness :
    alookup ((handle_message demoState demoNoPayload).2).message_futures 0 = none ∧
    alookup (run ((handle_message demoState demoNoPayload).2)
        [Op.connect]).future_states 4 = some FutureState.pending ∧
    (handle_message (run ((handle_message demoState demoNoPayload).2) [Op.connect])
        demoNoPayload).1 = HandleResult.emittedOnMessage demoNoPayload := by
  obtain ⟨h1, h2, h3⟩ :=
    dropped_entry_uncorrelated_forever demoState demoNoPayload
      (JsonValue.num (Int.ofNat 0)) 0 4 (by decide) (by decide) (by decide)
      (by decide) (by decide)
  exact ⟨h1, h2 [Op.connect], h3 [Op.connect] demoNoPayload (by decide)⟩

/-- Claim C10: a `send()` that proceeds stamps the assigned request id into
the caller-supplied dict under the key `id` before serialization (overwriting
any prior `id` binding, since Python dict assignment replaces the value), and
changes no other key: the wire frame is exactly the caller's dict with `id`
bound to the assigned id, every other key looks up unchanged. -/
theorem send_stamps_id_into_request (s : StreamState) (msg : Msg) (sock : Nat)
    (hs : s.socket = some sock) :
    (send s msg).1 =
      SendStep.requested s.message_id s.next_fresh
        (ainsert msg STREAM_KEY_ID (JsonValue.num (Int.ofNat s.message_id))) ∧
    alookup (ainsert msg STREAM_KEY_ID (JsonValue.num (Int.ofNat s.message_id)))
        STREAM_KEY_ID = some (JsonValue.num (Int.ofNat s.message_id)) ∧
    ∀ k, k ≠ STREAM_KEY_ID →
      alookup (ainsert msg STREAM_KEY_ID (JsonValue.num (Int.ofNat s.message_id))) k =
        alookup msg k := by
  refine ⟨?_, alookup_ainsert_self .., fun k hk => alookup_ainsert_ne _ _ hk⟩
  simp [send, hs]

/-- Witness for C10 at a connected stream and a request dict with a `method`
key: the id is stamped and the `method` binding is unchanged. -/
theorem send_stamps_id_into_request_witness :
    (send demoConnected [("method", JsonValue.str "SUBSCRIBE")]).1 =
      SendStep.requested demoConnected.message_id demoConnected.next_fresh
        (ainsert [("method", JsonValue.str "SUBSCRIBE")] STREAM_KEY_ID
          (JsonValue.num (Int.ofNat demoConnected.message_id))) ∧
    alookup (ainsert [("method", JsonValue.str "SUBSCRIBE")] STREAM_KEY_ID
        (JsonValue.num (Int.ofNat demoConnected.message_id))) "method" =
      alookup [("method", JsonValue.str "SUBSCRIBE")] "method" := by
  obtain ⟨h1, _, h3⟩ :=
    send_stamps_id_into_request demoConnected
      [("method", JsonValue.str "SUBSCRIBE")] 2 (by decide)
  exact ⟨h1, h3 "method" (by decide)⟩

end BinanceSDK
